import Mathlib

/-!
Shallow embedding of the fetch-and-present pipeline of a small MCP server
(src/context_mcp_server/server.py): pagination of fetched text, URL fetching
with content-type classification, the alternate-provider (Jina Reader)
fallback, filename generation and path resolution for saving.

Strings are modelled as `List Char`. Python string operations (slicing,
membership, startswith, strip, replace) are given faithful list models.
External effects (HTTP transport, JSON parsing, the HTML simplifier, the
clock, the filesystem) enter as explicit parameters or as emitted-operation
traces, so that every definition is executable.
-/

namespace ContextMcp

/-- Characters of a string literal. -/
def str (s : String) : List Char := s.data

/-- Python substring test `needle in hay`. -/
def hasSub (needle : List Char) : List Char → Bool
  | [] => needle.isEmpty
  | c :: t => needle.isPrefixOf (c :: t) || hasSub needle t

theorem hasSub_infix_iff (needle hay : List Char) :
    hasSub needle hay = true ↔ needle <:+: hay := by
  induction hay with
  | nil =>
    cases needle <;> simp [hasSub]
  | cons c t ih =>
    simp [hasSub, List.isPrefixOf_iff_prefix, ih, List.infix_cons_iff]

/-! ## Pagination Engine

Embeds the pagination logic of the `fetch` tool handler
(server.py, call_tool, lines 267-281). `body` is the content before the
continuation notice is appended (the Python variable `content` right after
the slice is taken), `text` is the final content string (with the notice
appended when truncated). -/

/-- The literal marker returned when no content remains
(server.py lines 269 and 273). -/
def noMoreContentMarker : List Char := str "<error>No more content available.</error>"

/-- The literal continuation notice appended to a truncated page
(server.py line 281). -/
def continuationNotice (nextStart : Nat) : List Char :=
  str "\n\n<error>Content truncated. Call the fetch tool with a start_index of " ++
    (toString nextStart).data ++ str " to get more content.</error>"

/-- Python slice `content[start_index : start_index + max_length]`. -/
def pageSlice (fullText : List Char) (startIndex maxLength : Nat) : List Char :=
  (fullText.drop startIndex).take maxLength

structure PaginatedView where
  body : List Char
  text : List Char
  truncated : Bool
  nextStartIndex : Nat
deriving DecidableEq

/-- The pagination of `call_tool` for the `fetch` tool (server.py 267-281):
if `start_index >= len(content)` or the bounded slice is empty, the fixed
no-more-content marker; otherwise the slice, with a continuation notice
appended exactly when the slice is full-length and content remains. -/
def paginate (fullText : List Char) (startIndex maxLength : Nat) : PaginatedView :=
  if fullText.length ≤ startIndex then
    { body := noMoreContentMarker, text := noMoreContentMarker,
      truncated := false, nextStartIndex := 0 }
  else
    let slice := pageSlice fullText startIndex maxLength
    if slice = [] then
      { body := noMoreContentMarker, text := noMoreContentMarker,
        truncated := false, nextStartIndex := 0 }
    else
      let remaining := fullText.length - (startIndex + slice.length)
      if slice.length = maxLength ∧ 0 < remaining then
        { body := slice,
          text := slice ++ continuationNotice (startIndex + slice.length),
          truncated := true, nextStartIndex := startIndex + slice.length }
      else
        { body := slice, text := slice, truncated := false, nextStartIndex := 0 }

/-- Successive paginate calls: start at `start`, follow `nextStartIndex`
while a page is truncated, stop at the first non-truncated page.  The
collected chunks are the page bodies: the returned texts with the appended
continuation notices excluded.  Fuel-driven; `fullText.length + 1` fuel
always suffices from start 0 since each truncated page advances the start. -/
def paginateChunks (fullText : List Char) (maxLength : Nat) : Nat → Nat → List (List Char)
  | _start, 0 => []
  | start, fuel + 1 =>
    let v := paginate fullText start maxLength
    if v.truncated then v.body :: paginateChunks fullText maxLength v.nextStartIndex fuel
    else [v.body]

/-- Concatenation of the collected chunks. -/
def concatAll : List (List Char) → List Char
  | [] => []
  | c :: cs => c ++ concatAll cs

theorem paginate_not_truncated_of_le (fullText : List Char) (startIndex maxLength : Nat)
    (h : fullText.length ≤ startIndex) :
    paginate fullText startIndex maxLength =
      { body := noMoreContentMarker, text := noMoreContentMarker,
        truncated := false, nextStartIndex := 0 } := by
  simp [paginate, h]

theorem pageSlice_length (fullText : List Char) (startIndex maxLength : Nat) :
    (pageSlice fullText startIndex maxLength).length =
      min maxLength (fullText.length - startIndex) := by
  simp [pageSlice]

theorem chunks_concat (fullText : List Char) (maxLength : Nat) (hm : 1 ≤ maxLength) :
    ∀ fuel start, start < fullText.length → fullText.length - start < fuel →
      concatAll (paginateChunks fullText maxLength start fuel) = fullText.drop start := by
  intro fuel
  induction fuel with
  | zero =>
    intro start hs hf
    omega
  | succ n ih =>
    intro start hs hf
    by_cases htr : (pageSlice fullText start maxLength).length = maxLength ∧
        0 < fullText.length - (start + (pageSlice fullText start maxLength).length)
    · -- truncated page: chunk is the full-length slice, recurse
      have hlen : (pageSlice fullText start maxLength).length = maxLength := htr.1
      have hrem : start + maxLength < fullText.length := by
        have := htr.2
        omega
      have hne : pageSlice fullText start maxLength ≠ [] := by
        intro hnil
        rw [hnil] at hlen
        simp at hlen
        omega
      have hpag : paginate fullText start maxLength =
          { body := pageSlice fullText start maxLength,
            text := pageSlice fullText start maxLength ++
              continuationNotice (start + (pageSlice fullText start maxLength).length),
            truncated := true,
            nextStartIndex := start + (pageSlice fullText start maxLength).length } := by
        simp only [paginate]
        rw [if_neg (show ¬ fullText.length ≤ start by omega), if_neg hne, if_pos htr]
      rw [paginateChunks, hpag]
      simp only [if_pos rfl]
      simp only [concatAll]
      rw [ih (start + (pageSlice fullText start maxLength).length)
        (by rw [hlen]; exact hrem) (by rw [hlen]; omega)]
      rw [hlen]
      have hdd : fullText.drop (start + maxLength) = (fullText.drop start).drop maxLength := by
        rw [List.drop_drop, Nat.add_comm]
      rw [pageSlice, hdd]
      exact List.take_append_drop ..
    · -- final page: the slice is everything that remains
      have hne : pageSlice fullText start maxLength ≠ [] := by
        intro hnil
        have := pageSlice_length fullText start maxLength
        rw [hnil] at this
        simp at this
        omega
      have hall : pageSlice fullText start maxLength = fullText.drop start := by
        have hlen := pageSlice_length fullText start maxLength
        rcases Classical.em ((pageSlice fullText start maxLength).length = maxLength) with he | he
        · -- full-length slice but nothing remains after it
          have hrem : fullText.length - (start + maxLength) = 0 := by
            by_contra hc
            exact htr ⟨he, by omega⟩
          rw [pageSlice]
          apply List.take_of_length_le
          simp
          omega
        · -- short slice: maxLength exceeded the remaining length
          have : fullText.length - start < maxLength := by omega
          rw [pageSlice]
          apply List.take_of_length_le
          simp
          omega
      have hpag : paginate fullText start maxLength =
          { body := pageSlice fullText start maxLength,
            text := pageSlice fullText start maxLength,
            truncated := false, nextStartIndex := 0 } := by
        simp only [paginate]
        rw [if_neg (show ¬ fullText.length ≤ start by omega), if_neg hne, if_neg htr]
      rw [paginateChunks, hpag]
      simp only [if_neg (by simp : ¬ (false = true))]
      simp only [concatAll, List.append_nil, hall]

/-- C1 (amended): for every nonempty fullText and every maxLength ≥ 1,
concatenating the bodies of successive paginate calls, starting at
startIndex 0 and following each nextStartIndex of each continuation notice until
a page is not truncated, reconstructs fullText exactly. -/
theorem pagination_reconstructs (fullText : List Char) (maxLength : Nat)
    (hm : 1 ≤ maxLength) (hne : fullText ≠ []) :
    concatAll (paginateChunks fullText maxLength 0 (fullText.length + 1)) = fullText := by
  have h0 : 0 < fullText.length := List.length_pos.mpr hne
  have := chunks_concat fullText maxLength hm (fullText.length + 1) 0 h0 (by omega)
  simpa using this

theorem pagination_reconstructs_witness :
    1 ≤ 2 ∧ str "abcde" ≠ [] ∧
      concatAll (paginateChunks (str "abcde") 2 0 ((str "abcde").length + 1)) = str "abcde" :=
  ⟨by decide, by decide, pagination_reconstructs (str "abcde") 2 (by decide) (by decide)⟩

/-- C1 (counterexample): for the empty fullText and maxLength 1, the single
paginate call is not truncated and returns the no-more-content marker, so
the concatenation of the returned chunks is the marker, not the empty
fullText. -/
theorem pagination_reconstructs_cex :
    concatAll (paginateChunks [] 1 0 (([] : List Char).length + 1)) ≠ ([] : List Char) := by
  decide

/-- C2: for a start index inside the text with a non-empty bounded slice,
the page is truncated exactly when the slice is full-length and content
remains past it; a truncated page reports nextStartIndex equal to
startIndex plus the slice length and appends the literal continuation
notice carrying that index (the notice instructs calling the fetch tool
again with that start index); a non-truncated page appends nothing. -/
theorem paginate_truncation (fullText : List Char) (startIndex maxLength : Nat)
    (hs : startIndex < fullText.length)
    (hne : pageSlice fullText startIndex maxLength ≠ []) :
    ((paginate fullText startIndex maxLength).truncated = true ↔
      ((pageSlice fullText startIndex maxLength).length = maxLength ∧
        0 < fullText.length -
          (startIndex + (pageSlice fullText startIndex maxLength).length))) ∧
    ((paginate fullText startIndex maxLength).truncated = true →
      (paginate fullText startIndex maxLength).nextStartIndex =
          startIndex + (pageSlice fullText startIndex maxLength).length ∧
      (paginate fullText startIndex maxLength).text =
        pageSlice fullText startIndex maxLength ++
          continuationNotice
            (startIndex + (pageSlice fullText startIndex maxLength).length) ∧
      (toString (startIndex + (pageSlice fullText startIndex maxLength).length)).data <:+:
        (paginate fullText startIndex maxLength).text) ∧
    ((paginate fullText startIndex maxLength).truncated = false →
      (paginate fullText startIndex maxLength).text =
        pageSlice fullText startIndex maxLength) := by
  by_cases htr : (pageSlice fullText startIndex maxLength).length = maxLength ∧
      0 < fullText.length - (startIndex + (pageSlice fullText startIndex maxLength).length)
  · have hpag : paginate fullText startIndex maxLength =
        { body := pageSlice fullText startIndex maxLength,
          text := pageSlice fullText startIndex maxLength ++
            continuationNotice
              (startIndex + (pageSlice fullText startIndex maxLength).length),
          truncated := true,
          nextStartIndex :=
            startIndex + (pageSlice fullText startIndex maxLength).length } := by
      simp only [paginate]
      rw [if_neg (show ¬ fullText.length ≤ startIndex by omega), if_neg hne, if_pos htr]
    rw [hpag]
    refine ⟨by simpa using htr, fun _ => ⟨rfl, rfl, ?_⟩, by simp⟩
    exact ⟨pageSlice fullText startIndex maxLength ++
        str "\n\n<error>Content truncated. Call the fetch tool with a start_index of ",
      str " to get more content.</error>",
      by simp [continuationNotice, List.append_assoc]⟩
  · have hpag : paginate fullText startIndex maxLength =
        { body := pageSlice fullText startIndex maxLength,
          text := pageSlice fullText startIndex maxLength,
          truncated := false, nextStartIndex := 0 } := by
      simp only [paginate]
      rw [if_neg (show ¬ fullText.length ≤ startIndex by omega), if_neg hne, if_neg htr]
    rw [hpag]
    exact ⟨by simpa using htr, by simp, fun _ => rfl⟩

theorem paginate_truncation_witness :
    1 < (str "abcdef").length ∧ pageSlice (str "abcdef") 1 2 ≠ [] ∧
      (paginate (str "abcdef") 1 2).truncated = true :=
  ⟨by decide, by decide,
    ((paginate_truncation (str "abcdef") 1 2 (by decide) (by decide)).1).mpr (by decide)⟩

/-- C3: whenever the start index reaches or passes the end of fullText
(including startIndex equal to the length, and including the empty
fullText), or the bounded slice is empty, paginate returns exactly the
fixed no-more-content marker with truncated = false. -/
theorem paginate_no_more_content (fullText : List Char) (startIndex maxLength : Nat)
    (h : fullText.length ≤ startIndex ∨ pageSlice fullText startIndex maxLength = []) :
    (paginate fullText startIndex maxLength).text = noMoreContentMarker ∧
    (paginate fullText startIndex maxLength).body = noMoreContentMarker ∧
    (paginate fullText startIndex maxLength).truncated = false := by
  rcases h with h | h
  · rw [paginate_not_truncated_of_le fullText startIndex maxLength h]
    exact ⟨rfl, rfl, rfl⟩
  · by_cases hle : fullText.length ≤ startIndex
    · rw [paginate_not_truncated_of_le fullText startIndex maxLength hle]
      exact ⟨rfl, rfl, rfl⟩
    · have hpag : paginate fullText startIndex maxLength =
          { body := noMoreContentMarker, text := noMoreContentMarker,
            truncated := false, nextStartIndex := 0 } := by
        simp only [paginate]
        rw [if_neg hle, if_pos h]
      rw [hpag]
      exact ⟨rfl, rfl, rfl⟩

theorem paginate_no_more_content_witness :
    ((str "ab").length ≤ 2 ∨ pageSlice (str "ab") 2 5 = []) ∧
      (paginate (str "ab") 2 5).text = noMoreContentMarker :=
  ⟨Or.inl (by decide), (paginate_no_more_content (str "ab") 2 5 (Or.inl (by decide))).1⟩

/-! ## URL Fetcher

Embeds `fetch_url` (server.py lines 50-87).  The HTTP transport is an
explicit outcome parameter: either a network-level error (httpx.HTTPError,
with the repr of the exception) or a response carrying a status code, the
body text and the optional content-type header.  The HTML simplifier
(`extract_content_from_html`, an external-library wrapper) is an explicit
function parameter. -/

structure FetchParams where
  url : List Char
  userAgent : List Char
  forceRaw : Bool
  proxyUrl : Option (List Char)
deriving DecidableEq

inductive TransportOutcome where
  | httpError : List Char → TransportOutcome
  | response : Nat → List Char → Option (List Char) → TransportOutcome
deriving DecidableEq

/-- The HTML classification of server.py line 77-79:
`"<html" in page_raw[:100] or "text/html" in content_type or not content_type`. -/
def isPageHtml (pageRaw contentType : List Char) : Bool :=
  hasSub (str "<html") (pageRaw.take 100) || hasSub (str "text/html") contentType ||
    contentType.isEmpty

/-- The advisory prefixed to non-simplified content (server.py line 86). -/
def rawContentAdvisory (contentType : List Char) : List Char :=
  str "Content type " ++ contentType ++
    str " cannot be simplified to markdown, but here is the raw content:\n"

/-- Transport-error message of server.py line 67. -/
def fetchTransportErrMsg (url detail : List Char) : List Char :=
  str "Failed to fetch " ++ url ++ str ": " ++ detail

/-- Bad-status message of server.py line 71. -/
def fetchStatusErrMsg (url : List Char) (status : Nat) : List Char :=
  str "Failed to fetch " ++ url ++ str " - status code " ++ (toString status).data

/-- `fetch_url` (server.py 50-87): raise on transport error or status >= 400,
otherwise classify and either simplify (HTML, not forceRaw) or return the
raw text behind the fixed advisory.  A missing content-type header reads as
the empty string (`response.headers.get("content-type", "")`). -/
def fetch_url (simplify : List Char → List Char) (p : FetchParams)
    (t : TransportOutcome) : Except (List Char) (List Char × List Char) :=
  match t with
  | .httpError detail => .error (fetchTransportErrMsg p.url detail)
  | .response status body ctHeader =>
    if 400 ≤ status then .error (fetchStatusErrMsg p.url status)
    else
      let contentType := ctHeader.getD []
      if isPageHtml body contentType && !p.forceRaw then .ok (simplify body, [])
      else .ok (body, rawContentAdvisory contentType)

/-- C5: a non-error response is classified HTML exactly when the
content-type header contains "text/html", or the first 100 characters of
the body contain "<html", or the header is absent or empty; if classified
HTML and forceRaw is false the body is the simplifier applied to the raw
body with an empty prefix; in every other case the body is the raw text
and the prefix is the fixed advisory naming the content-type. -/
theorem fetch_url_classification (simplify : List Char → List Char) (p : FetchParams)
    (status : Nat) (body : List Char) (ctHeader : Option (List Char))
    (hst : status < 400) :
    (isPageHtml body (ctHeader.getD []) = true ↔
      (str "text/html" <:+: ctHeader.getD [] ∨ str "<html" <:+: body.take 100 ∨
        ctHeader.getD [] = [])) ∧
    (isPageHtml body (ctHeader.getD []) = true → p.forceRaw = false →
      fetch_url simplify p (.response status body ctHeader) = .ok (simplify body, [])) ∧
    ((isPageHtml body (ctHeader.getD []) = false ∨ p.forceRaw = true) →
      fetch_url simplify p (.response status body ctHeader) =
        .ok (body, rawContentAdvisory (ctHeader.getD [])) ∧
      ctHeader.getD [] <:+: rawContentAdvisory (ctHeader.getD [])) := by
  refine ⟨?_, ?_, ?_⟩
  · simp [isPageHtml, hasSub_infix_iff, List.isEmpty_iff]
    tauto
  · intro hhtml hraw
    simp [fetch_url, if_neg (show ¬ 400 ≤ status by omega), hhtml, hraw]
  · intro hcase
    constructor
    · have hcond : (isPageHtml body (ctHeader.getD []) && !p.forceRaw) = false := by
        rcases hcase with h | h <;> simp [h]
      simp [fetch_url, if_neg (show ¬ 400 ≤ status by omega), hcond]
    · exact ⟨str "Content type ", str " cannot be simplified to markdown, but here is the raw content:\n",
        by simp [rawContentAdvisory]⟩

theorem fetch_url_classification_witness :
    (7 : Nat) < 400 ∧
      fetch_url (fun _ => str "SIMPLIFIED")
        { url := str "http://e.x", userAgent := str "ua", forceRaw := false, proxyUrl := none }
        (.response 200 (str "<html><body>hi</body></html>") (some (str "text/html"))) =
        .ok (str "SIMPLIFIED", []) :=
  ⟨by decide,
    ((fetch_url_classification (fun _ => str "SIMPLIFIED")
        { url := str "http://e.x", userAgent := str "ua", forceRaw := false, proxyUrl := none }
        200 (str "<html><body>hi</body></html>") (some (str "text/html"))
        (by decide)).2.1) (by decide) rfl⟩

/-- C6: `fetch_url` raises exactly on a transport error or a status of at
least 400; the transport-error message contains the URL and the error
detail, the status message contains the URL and the decimal status code,
and every status below 400 yields a non-error result. -/
theorem fetch_url_errors (simplify : List Char → List Char) (p : FetchParams) :
    (∀ detail, fetch_url simplify p (.httpError detail) =
        .error (fetchTransportErrMsg p.url detail) ∧
      p.url <:+: fetchTransportErrMsg p.url detail ∧
      detail <:+: fetchTransportErrMsg p.url detail) ∧
    (∀ status body ctHeader, 400 ≤ status →
      fetch_url simplify p (.response status body ctHeader) =
        .error (fetchStatusErrMsg p.url status) ∧
      p.url <:+: fetchStatusErrMsg p.url status ∧
      (toString status).data <:+: fetchStatusErrMsg p.url status) ∧
    (∀ status body ctHeader, status < 400 →
      ∃ r, fetch_url simplify p (.response status body ctHeader) = .ok r) := by
  refine ⟨?_, ?_, ?_⟩
  · intro detail
    refine ⟨rfl, ?_, ?_⟩
    · exact ⟨str "Failed to fetch ", str ": " ++ detail, by simp [fetchTransportErrMsg]⟩
    · exact ⟨str "Failed to fetch " ++ p.url ++ str ": ", [],
        by simp [fetchTransportErrMsg]⟩
  · intro status body ctHeader hst
    refine ⟨by simp [fetch_url, hst], ?_, ?_⟩
    · exact ⟨str "Failed to fetch ", str " - status code " ++ (toString status).data,
        by simp [fetchStatusErrMsg]⟩
    · exact ⟨str "Failed to fetch " ++ p.url ++ str " - status code ", [],
        by simp [fetchStatusErrMsg]⟩
  · intro status body ctHeader hst
    by_cases hcond : (isPageHtml body (ctHeader.getD []) && !p.forceRaw) = true
    · exact ⟨(simplify body, []),
        by simp [fetch_url, if_neg (show ¬ 400 ≤ status by omega), hcond]⟩
    · exact ⟨(body, rawContentAdvisory (ctHeader.getD [])),
        by simp [fetch_url, if_neg (show ¬ 400 ≤ status by omega),
          Bool.not_eq_true _ ▸ hcond]⟩

theorem fetch_url_errors_witness :
    (400 : Nat) ≤ 503 ∧
      fetch_url (fun s => s)
        { url := str "http://e.x", userAgent := str "ua", forceRaw := false, proxyUrl := none }
        (.response 503 (str "oops") none) =
        .error (fetchStatusErrMsg (str "http://e.x") 503) :=
  ⟨by decide,
    ((fetch_url_errors (fun s => s)
        { url := str "http://e.x", userAgent := str "ua", forceRaw := false, proxyUrl := none }).2.1
      503 (str "oops") none (by decide)).1⟩

/-! ## Alternate-Provider (Jina Reader) Fetcher

Embeds `fetch_with_jina_fallback` (server.py lines 90-130).  The provider
HTTP attempt is an explicit outcome: a transport error or a response with
status, body text, and the result of `json.loads(body)` (`none` meaning a
`json.JSONDecodeError`).  The Python error-payload probe
`if "code" in error_data and error_data.get("data") is None` is modelled
with Python semantics for `in` and `.get` on each JSON shape: both raise
(TypeError / AttributeError) on shapes that do not support them, and any
exception raised inside the provider block is swallowed by the bare
`except Exception`, which falls through to `fetch_url`. -/

inductive Json where
  | null : Json
  | boolean : Bool → Json
  | num : Int → Json
  | strVal : List Char → Json
  | arr : List Json → Json
  | obj : List (List Char × Json) → Json

/-- First-match association lookup (Python dict access; JSON object keys
are unique, so first-match agrees with dict semantics). -/
def lookupKey (kvs : List (List Char × Json)) (k : List Char) : Option Json :=
  match kvs with
  | [] => none
  | (k2, v) :: t => if k2 = k then some v else lookupKey t k

/-- Python equality `"code" == element` against a parsed JSON array element. -/
def isCodeString : Json → Bool
  | .strVal s => s = str "code"
  | _ => false

/-- Python `"code" in error_data`: key test on a dict, membership on a
list, substring on a str; raises TypeError on every other JSON value. -/
def containsCodeKey : Json → Except Unit Bool
  | .obj kvs => .ok ((lookupKey kvs (str "code")).isSome)
  | .arr xs => .ok (xs.any isCodeString)
  | .strVal s => .ok (hasSub (str "code") s)
  | _ => .error ()

/-- Python `error_data.get("data") is None`: on a dict, true when the key
is absent or its value is JSON null; raises AttributeError otherwise. -/
def getDataIsNone : Json → Except Unit Bool
  | .obj kvs =>
    .ok (match lookupKey kvs (str "data") with
      | none => true
      | some Json.null => true
      | some _ => false)
  | _ => .error ()

/-- The error-payload probe of server.py lines 113-120 applied to the
outcome of `json.loads`: `.ok true` means the Jina-error Exception is
raised, `.ok false` means the body passes as content, `.error` means the
probe itself raised (TypeError / AttributeError). -/
def jinaErrorCheck : Option Json → Except Unit Bool
  | none => .ok false
  | some j =>
    match containsCodeKey j with
    | .error u => .error u
    | .ok false => .ok false
    | .ok true => getDataIsNone j

inductive ProviderResponse where
  | transportErr : List Char → ProviderResponse
  | response : Nat → List Char → Option Json → ProviderResponse

/-- The prefix reported on provider success (server.py line 123). -/
def jinaPfx : List Char := str "Content fetched via Jina Reader API:\n"

/-- `fetch_with_jina_fallback` (server.py 90-130): return the provider body
on a status-200 response whose body passes the error-payload probe;
otherwise (transport error, any other status, detected error payload, or a
probe that raised) invoke `fetch_url` with the same parameters. -/
def fetch_with_jina_fallback (p : FetchParams) (resp : ProviderResponse)
    (fetchUrlFn : FetchParams → Except (List Char) (List Char × List Char)) :
    Except (List Char) (List Char × List Char) :=
  match resp with
  | .transportErr _ => fetchUrlFn p
  | .response status body parsed =>
    if status = 200 then
      match jinaErrorCheck parsed with
      | .ok false => .ok (body, jinaPfx)
      | _ => fetchUrlFn p
    else fetchUrlFn p

/-- A failing provider attempt in the sense of C4: transport error, any
status other than 200, or a status-200 body parsing to a JSON object with
a "code" key whose "data" key is null or absent. -/
def providerAttemptFails (resp : ProviderResponse) : Prop :=
  match resp with
  | .transportErr _ => True
  | .response status _ parsed =>
    status ≠ 200 ∨
      ∃ kvs, parsed = some (Json.obj kvs) ∧ (lookupKey kvs (str "code")).isSome = true ∧
        (lookupKey kvs (str "data") = none ∨ lookupKey kvs (str "data") = some Json.null)

/-- C4: whenever the provider attempt fails (transport error, non-200
status, or a status-200 detected error payload), the fallback fetcher
returns exactly the result of invoking the URL Fetcher with identical
parameters; moreover, for every provider outcome whatsoever, any error the
caller observes is one produced by the URL Fetcher itself. -/
theorem jina_fallback_on_failure (p : FetchParams) (resp : ProviderResponse)
    (fetchUrlFn : FetchParams → Except (List Char) (List Char × List Char))
    (hfail : providerAttemptFails resp) :
    fetch_with_jina_fallback p resp fetchUrlFn = fetchUrlFn p ∧
    (∀ resp2 e, fetch_with_jina_fallback p resp2 fetchUrlFn = .error e →
      fetchUrlFn p = .error e) := by
  constructor
  · cases resp with
    | transportErr d => rfl
    | response status body parsed =>
      rcases hfail with hst | ⟨kvs, hp, hcode, hdata⟩
      · simp [fetch_with_jina_fallback, hst]
      · subst hp
        have hchk : jinaErrorCheck (some (Json.obj kvs)) = .ok true := by
          simp only [jinaErrorCheck, containsCodeKey, hcode, getDataIsNone]
          rcases hdata with h | h <;> rw [h]
        by_cases hst : status = 200
        · subst hst
          simp [fetch_with_jina_fallback, hchk]
        · simp [fetch_with_jina_fallback, hst]
  · intro resp2 e h
    cases resp2 with
    | transportErr d => exact h
    | response status body parsed =>
      by_cases hst : status = 200
      · subst hst
        simp only [fetch_with_jina_fallback, if_pos rfl] at h
        cases hchk : jinaErrorCheck parsed with
        | error u => rw [hchk] at h; exact h
        | ok b =>
          cases b with
          | false => rw [hchk] at h; exact absurd h (by simp)
          | true => rw [hchk] at h; exact h
      · simp only [fetch_with_jina_fallback, if_neg hst] at h
        exact h

theorem jina_fallback_on_failure_witness :
    fetch_with_jina_fallback
      { url := str "http://e.x", userAgent := str "ua", forceRaw := false, proxyUrl := none }
      (.response 200 (str "\x7b\"code\":4,\"data\":null,\"message\":\"x\"\x7d")
        (some (Json.obj [(str "code", Json.num 4), (str "data", Json.null),
          (str "message", Json.strVal (str "x"))])))
      (fun _ => .ok (str "fallback-body", [])) = .ok (str "fallback-body", []) :=
  ((jina_fallback_on_failure
      { url := str "http://e.x", userAgent := str "ua", forceRaw := false, proxyUrl := none }
      (.response 200 (str "\x7b\"code\":4,\"data\":null,\"message\":\"x\"\x7d")
        (some (Json.obj [(str "code", Json.num 4), (str "data", Json.null),
          (str "message", Json.strVal (str "x"))])))
      (fun _ => .ok (str "fallback-body", []))
      (Or.inr ⟨[(str "code", Json.num 4), (str "data", Json.null),
          (str "message", Json.strVal (str "x"))], rfl, rfl, Or.inr rfl⟩)).1).trans
    rfl

/-- C10 (counterexample): a status-200 provider body parsing to the JSON
array [1, 2] is returned as provider content, not replaced by the URL
Fetcher result: Python `"code" in [1, 2]` is a list-membership test that
evaluates to False without raising, so the body passes the probe. -/
theorem jina_nonobject_cex :
    fetch_with_jina_fallback
      { url := str "http://e.x", userAgent := str "ua", forceRaw := false, proxyUrl := none }
      (.response 200 (str "[1, 2]") (some (Json.arr [Json.num 1, Json.num 2])))
      (fun _ => .error (str "fallback invoked")) = .ok (str "[1, 2]", jinaPfx) ∧
    (Except.ok (str "[1, 2]", jinaPfx) :
        Except (List Char) (List Char × List Char)) ≠ .error (str "fallback invoked") := by
  exact ⟨rfl, fun h => Except.noConfusion h⟩

/-- C10 (amended): for every status-200 provider response whose body parses
as JSON but as a value on which Python membership raises — a number, a
boolean, or null (for example the body "42") — fetchWithFallback does not
return the provider body and instead falls back to the URL Fetcher,
because the error-payload check raises a TypeError there and that
exception is swallowed by the fallback path; JSON arrays and strings
support membership, so they fall back only when they contain "code". -/
theorem jina_nonobject_amended (p : FetchParams) (body : List Char) (j : Json)
    (fetchUrlFn : FetchParams → Except (List Char) (List Char × List Char))
    (hj : j = Json.null ∨ (∃ b, j = Json.boolean b) ∨ (∃ n, j = Json.num n)) :
    fetch_with_jina_fallback p (.response 200 body (some j)) fetchUrlFn = fetchUrlFn p := by
  have hchk : jinaErrorCheck (some j) = .error () := by
    rcases hj with h | ⟨b, h⟩ | ⟨n, h⟩ <;> subst h <;> rfl
  simp [fetch_with_jina_fallback, hchk]

theorem jina_nonobject_amended_witness :
    fetch_with_jina_fallback
      { url := str "http://e.x", userAgent := str "ua", forceRaw := false, proxyUrl := none }
      (.response 200 (str "42") (some (Json.num 42)))
      (fun _ => .ok (str "fallback-body", [])) = .ok (str "fallback-body", []) :=
  (jina_nonobject_amended
      { url := str "http://e.x", userAgent := str "ua", forceRaw := false, proxyUrl := none }
      (str "42") (Json.num 42) (fun _ => .ok (str "fallback-body", []))
      (Or.inr (Or.inr ⟨42, rfl⟩))).trans rfl

/-! ## Filename generation

Embeds `generate_filename_from_url` (server.py lines 177-200).  The URL
parser models `urllib.parse.urlparse` restricted to scheme://host/path
URLs (no query, fragment, port or userinfo), the class exercised by the
claims; the timestamp (`datetime.now().strftime("%Y%m%d_%H%M%S")`) is an
explicit parameter. -/

/-- The text after the first "://" (model of urlparse splitting off the
scheme for scheme://host/path URLs). -/
def dropToScheme : List Char → List Char
  | ':' :: '/' :: '/' :: rest => rest
  | _ :: t => dropToScheme t
  | [] => []

/-- `urlparse(url).netloc` for scheme://host/path URLs. -/
def urlNetloc (url : List Char) : List Char :=
  (dropToScheme url).takeWhile (fun c => c ≠ '/')

/-- `urlparse(url).path` for scheme://host/path URLs. -/
def urlPath (url : List Char) : List Char :=
  (dropToScheme url).dropWhile (fun c => c ≠ '/')

/-- Python `netloc.replace("www.", "")`: removes every left-to-right
non-overlapping occurrence of "www.", not only a leading one. -/
def removeWww : List Char → List Char
  | 'w' :: 'w' :: 'w' :: '.' :: rest => removeWww rest
  | c :: t => c :: removeWww t
  | [] => []

/-- Python `path.strip('/')`. -/
def pyStripSlashes (s : List Char) : List Char :=
  ((s.dropWhile (fun c => c = '/')).reverse.dropWhile (fun c => c = '/')).reverse

/-- Python `path.split('/')[-1]` on a slash-stripped path. -/
def lastSegment (s : List Char) : List Char :=
  (s.reverse.takeWhile (fun c => c ≠ '/')).reverse

/-- Python `filename_base.rsplit('.', 1)[0]` guarded by `'.' in filename_base`. -/
def stripLastExt (s : List Char) : List Char :=
  if s.contains '.' then ((s.reverse.dropWhile (fun c => c ≠ '.')).drop 1).reverse else s

/-- One character of `re.sub(r'[^\w\-_.]', '_', ...)` over ASCII text
(word characters, dash, underscore and dot are kept). -/
def sanitizeChar (c : Char) : Char :=
  if c.isAlphanum || c = '_' || c = '-' || c = '.' then c else '_'

def sanitizeName (s : List Char) : List Char := s.map sanitizeChar

/-- The base-name computation of `generate_filename_from_url`: the last
path segment with its extension removed when the path is non-empty,
otherwise the www-cleaned host. -/
def filenameBase (url : List Char) : List Char :=
  let domain := removeWww (urlNetloc url)
  let path := pyStripSlashes (urlPath url)
  if path = [] then domain else stripLastExt (lastSegment path)

/-- `generate_filename_from_url` (server.py 177-200) with the clock
abstracted: `f"{filename_base}_{timestamp}.md"`. -/
def generate_filename_from_url (url timestamp : List Char) : List Char :=
  sanitizeName (filenameBase url) ++ str "_" ++ timestamp ++ str ".md"

/-- Modelled from the claim wording, for comparison with the source: strip
only a LEADING "www." from the host.  The source instead calls
`netloc.replace("www.", "")`, which removes every occurrence. -/
def stripLeadingWww (s : List Char) : List Char :=
  match s with
  | 'w' :: 'w' :: 'w' :: '.' :: rest => rest
  | _ => s

/-- The filename the claim algorithm (leading-www strip) would produce. -/
def claimFilenameBase (url : List Char) : List Char :=
  let domain := stripLeadingWww (urlNetloc url)
  let path := pyStripSlashes (urlPath url)
  if path = [] then domain else stripLastExt (lastSegment path)

def claimFilename (url timestamp : List Char) : List Char :=
  sanitizeName (claimFilenameBase url) ++ str "_" ++ timestamp ++ str ".md"

theorem dropToScheme_https (rest : List Char) :
    dropToScheme (str "https://" ++ rest) = rest := rfl

theorem takeWhile_ne_slash (host : List Char) (hh : ∀ c ∈ host, c ≠ '/') :
    (host ++ ['/']).takeWhile (fun c => c ≠ '/') = host := by
  induction host with
  | nil => simp
  | cons c t ih =>
    have hc : c ≠ '/' := hh c (by simp)
    have ih2 := ih (fun x hx => hh x (by simp [hx]))
    simp only [List.cons_append, List.takeWhile_cons]
    simp [hc]
    simpa using ih2

theorem dropWhile_ne_slash (host : List Char) (hh : ∀ c ∈ host, c ≠ '/') :
    (host ++ ['/']).dropWhile (fun c => c ≠ '/') = ['/'] := by
  induction host with
  | nil => simp
  | cons c t ih =>
    have hc : c ≠ '/' := hh c (by simp)
    have ih2 := ih (fun x hx => hh x (by simp [hx]))
    simp only [List.cons_append, List.dropWhile_cons]
    simp [hc]
    simpa using ih2

/-- C7 (counterexample): for the URL https://a.www.b/ (empty path, host
a.www.b) the source removes the interior "www." and generates the stem
a.b, while the claim leading-www strip keeps a.www.b, so the generated
filenames differ. -/
theorem filename_www_cex :
    generate_filename_from_url (str "https://a.www.b/") (str "20260101_000000") =
      str "a.b_20260101_000000.md" ∧
    claimFilename (str "https://a.www.b/") (str "20260101_000000") =
      str "a.www.b_20260101_000000.md" ∧
    generate_filename_from_url (str "https://a.www.b/") (str "20260101_000000") ≠
      claimFilename (str "https://a.www.b/") (str "20260101_000000") :=
  ⟨rfl, rfl, by decide⟩

/-- C7 (amended): the auto filename is the sanitized base, an underscore,
the second-granularity timestamp and ".md", where the base is the last
path segment with its extension removed, or — when the path is empty —
the host with EVERY occurrence of "www." removed (Python str.replace);
in particular https://www.example.com/blog/my-post.html yields stem
my-post and https://example.com/ yields stem example.com. -/
theorem filename_generation (host ts : List Char) (hh : ∀ c ∈ host, c ≠ '/') :
    generate_filename_from_url (str "https://" ++ host ++ str "/") ts =
      sanitizeName (removeWww host) ++ str "_" ++ ts ++ str ".md" ∧
    generate_filename_from_url (str "https://www.example.com/blog/my-post.html") ts =
      str "my-post" ++ str "_" ++ ts ++ str ".md" ∧
    generate_filename_from_url (str "https://example.com/") ts =
      str "example.com" ++ str "_" ++ ts ++ str ".md" := by
  refine ⟨?_, rfl, rfl⟩
  have hsch : dropToScheme (str "https://" ++ host ++ str "/") = host ++ str "/" := by
    rw [List.append_assoc]
    exact dropToScheme_https (host ++ str "/")
  have hnet : urlNetloc (str "https://" ++ host ++ str "/") = host := by
    rw [urlNetloc, hsch]
    exact takeWhile_ne_slash host hh
  have hpath : urlPath (str "https://" ++ host ++ str "/") = ['/'] := by
    rw [urlPath, hsch]
    exact dropWhile_ne_slash host hh
  have hbase : filenameBase (str "https://" ++ host ++ str "/") = removeWww host := by
    simp only [filenameBase, hnet, hpath]
    rfl
  rw [generate_filename_from_url, hbase]

theorem filename_generation_witness :
    generate_filename_from_url (str "https://" ++ str "www.e.f" ++ str "/") (str "TS") =
      sanitizeName (removeWww (str "www.e.f")) ++ str "_" ++ str "TS" ++ str ".md" :=
  (filename_generation (str "www.e.f") (str "TS") (by decide)).1

/-! ## Path resolution and the fetch_and_save effect order

Embeds the file-path branch of the `fetch_and_save` handler (server.py
lines 297-330).  POSIX path functions (`os.path.isabs`, `os.path.join`,
`os.path.dirname`) are modelled directly; filesystem effects are emitted
as an explicit operation trace in program order. -/

/-- Python `s.strip()`. -/
def pyStrip (s : List Char) : List Char :=
  ((s.dropWhile Char.isWhitespace).reverse.dropWhile Char.isWhitespace).reverse

/-- POSIX `os.path.isabs`: the path starts with a slash. -/
def isAbsPath : List Char → Bool
  | '/' :: _ => true
  | _ => false

/-- POSIX `os.path.join(a, b)` for two components: an absolute second
component discards the first; otherwise the components are joined with a
separating slash unless one is already present. -/
def osPathJoin (a b : List Char) : List Char :=
  if isAbsPath b then b
  else if a = [] then b
  else if a.getLast? = some '/' then a ++ b
  else a ++ '/' :: b

/-- The file-path resolution of `fetch_and_save` (server.py 297-313):
Python truthiness `args.file_path and args.file_path.strip()` selects the
explicit-path branch exactly when the argument is present and not
whitespace-only; the stripped path is then used as-is when absolute and
joined under the working directory when relative; otherwise the
auto-generated filename is joined under the working directory. -/
def resolvePath (filePathArg : Option (List Char)) (workDir autoName : List Char) :
    List Char :=
  match filePathArg with
  | some fp =>
    if pyStrip fp ≠ [] then
      let provided := pyStrip fp
      if isAbsPath provided then provided else osPathJoin workDir provided
    else osPathJoin workDir autoName
  | none => osPathJoin workDir autoName

/-- POSIX `os.path.dirname`: everything up to the last slash, with
trailing slashes stripped unless the result is all slashes. -/
def dirname (p : List Char) : List Char :=
  let head := (p.reverse.dropWhile (fun c => c ≠ '/')).reverse
  if head.all (fun c => c = '/') then head
  else (head.reverse.dropWhile (fun c => c = '/')).reverse

inductive FsOp where
  | mkdirs : List Char → FsOp
  | writeFile : List Char → List Char → FsOp
deriving DecidableEq

/-- The `fetch_and_save` handler body (server.py 297-330) as an effect
trace: the path is resolved first, then the fetch (provider attempt plus
fallback) runs, and only on fetched content are the parent-directory
creation and the file write emitted, in that order; a fetch failure is
re-raised as the internal error with no filesystem operation emitted.  The
success value is abstracted to the resolved path and the written content
(the confirmation text is not the subject of any claim). -/
def fetch_and_save (filePathArg : Option (List Char)) (workDir autoName : List Char)
    (fetchOutcome : Except (List Char) (List Char × List Char)) :
    List FsOp × Except (List Char) (List Char × List Char) :=
  let filePath := resolvePath filePathArg workDir autoName
  match fetchOutcome with
  | .error e => ([], .error (str "Failed to fetch and save: " ++ e))
  | .ok (content, _pfx) =>
    ([FsOp.mkdirs (dirname filePath), FsOp.writeFile filePath content],
      .ok (filePath, content))

/-- C8: a provided, non-blank explicit file path is used verbatim when
absolute, untouched by any working-directory join, and joined under the
working directory when relative; an absent or whitespace-only file path
selects the auto-generated filename joined under the working directory. -/
theorem resolve_path_spec (workDir autoName : List Char) :
    (∀ fp, pyStrip fp = fp → fp ≠ [] →
      (isAbsPath fp = true → resolvePath (some fp) workDir autoName = fp) ∧
      (isAbsPath fp = false →
        resolvePath (some fp) workDir autoName = osPathJoin workDir fp)) ∧
    (∀ fp, pyStrip fp = [] →
      resolvePath (some fp) workDir autoName = osPathJoin workDir autoName) ∧
    resolvePath none workDir autoName = osPathJoin workDir autoName := by
  refine ⟨?_, ?_, rfl⟩
  · intro fp hstrip hne
    constructor
    · intro habs
      simp [resolvePath, hstrip, hne, habs]
    · intro habs
      simp [resolvePath, hstrip, hne, habs]
  · intro fp hstrip
    simp [resolvePath, hstrip]

theorem resolve_path_spec_witness :
    pyStrip (str "/tmp/out.md") = str "/tmp/out.md" ∧ str "/tmp/out.md" ≠ [] ∧
      isAbsPath (str "/tmp/out.md") = true ∧
      resolvePath (some (str "/tmp/out.md")) (str "data") (str "auto.md") =
        str "/tmp/out.md" :=
  ⟨by decide, by decide, by decide,
    ((resolve_path_spec (str "data") (str "auto.md")).1 (str "/tmp/out.md")
      (by decide) (by decide)).1 (by decide)⟩

/-- C9: the parent-directory creation and the file write are emitted only
after the fetch has returned content, so a failing fetch raises the
wrapped internal error with an empty filesystem trace; conversely, a
non-empty filesystem trace certifies that the fetch succeeded. -/
theorem fetch_and_save_no_write_on_failure (filePathArg : Option (List Char))
    (workDir autoName e : List Char) :
    fetch_and_save filePathArg workDir autoName (.error e) =
      ([], .error (str "Failed to fetch and save: " ++ e)) ∧
    (∀ outcome, (fetch_and_save filePathArg workDir autoName outcome).1 ≠ [] →
      ∃ content pfx, outcome = .ok (content, pfx)) := by
  refine ⟨rfl, ?_⟩
  intro outcome hops
  cases outcome with
  | error e2 => exact absurd rfl hops
  | ok r => exact ⟨r.1, r.2, rfl⟩

theorem fetch_and_save_no_write_on_failure_witness :
    fetch_and_save (some (str "notes.md")) (str "data") (str "auto.md")
      (.error (str "Failed to fetch http://e.x - status code 503")) =
      ([], .error (str "Failed to fetch and save: " ++
        str "Failed to fetch http://e.x - status code 503")) :=
  (fetch_and_save_no_write_on_failure (some (str "notes.md")) (str "data")
    (str "auto.md") (str "Failed to fetch http://e.x - status code 503")).1

end ContextMcp
